import Mathlib

/-!
Verification model of the APE (Actually Portable Executable) linker post-pass
(`src/cmd/link/internal/ld/ape.go`).  Byte buffers are `List Nat` (each entry a
byte value), little-endian fields are explicit sums, and the Go functions
`convertToAPE`, `makeAPEHeader`, `makeEmbeddedElfHeader`, `makeMachoHeader`,
`writePEHeader`, `replaceAll` and `indexOf` are translated one-to-one.
-/

namespace Ape

/-- Target architecture family (`sys.ArchFamily`); only AMD64 and ARM64 reach
this code path. -/
inductive ArchFamily where
  | amd64 : ArchFamily
  | arm64 : ArchFamily
deriving DecidableEq, Repr

/-- Bytes of an ASCII string constant. -/
def bytesOf (s : String) : List Nat := s.toList.map Char.toNat

/-- Little-endian bytes of a 16-bit value (`binary.LittleEndian.PutUint16`). -/
def le16 (v : Nat) : List Nat := [v % 256, v / 256 % 256]

/-- Little-endian bytes of a 32-bit value (`binary.LittleEndian.PutUint32`). -/
def le32 (v : Nat) : List Nat :=
  [v % 256, v / 256 % 256, v / 65536 % 256, v / 16777216 % 256]

/-- Little-endian bytes of a 64-bit value (`binary.LittleEndian.PutUint64`). -/
def le64 (v : Nat) : List Nat :=
  [v % 256, v / 256 % 256, v / 65536 % 256, v / 16777216 % 256,
   v / 4294967296 % 256, v / 1099511627776 % 256,
   v / 281474976710656 % 256, v / 72057594037927936 % 256]

/-- Read a 16-bit little-endian value (`binary.LittleEndian.Uint16`). -/
def readLE16 (l : List Nat) (off : Nat) : Nat :=
  l.getD off 0 + 256 * l.getD (off + 1) 0

/-- Read a 32-bit little-endian value (`binary.LittleEndian.Uint32`). -/
def readLE32 (l : List Nat) (off : Nat) : Nat :=
  l.getD off 0 + 256 * l.getD (off + 1) 0 + 65536 * l.getD (off + 2) 0 +
    16777216 * l.getD (off + 3) 0

/-- Read a 64-bit little-endian value (`binary.LittleEndian.Uint64`). -/
def readLE64 (l : List Nat) (off : Nat) : Nat :=
  l.getD off 0 + 256 * l.getD (off + 1) 0 + 65536 * l.getD (off + 2) 0 +
    16777216 * l.getD (off + 3) 0 + 4294967296 * l.getD (off + 4) 0 +
    1099511627776 * l.getD (off + 5) 0 + 281474976710656 * l.getD (off + 6) 0 +
    72057594037927936 * l.getD (off + 7) 0

/-- Go `copy(dst[off:], src)`: write `src` into `dst` starting at `off`,
truncating at the end of `dst` (`List.set` past the end is a no-op, exactly
like Go's `copy` which copies only `min` lengths). -/
def writeBytes (dst : List Nat) (off : Nat) : List Nat → List Nat
  | [] => dst
  | b :: rest => writeBytes (dst.set off b) (off + 1) rest

/-- Go 64-bit unsigned addition. -/
def add64 (a b : Nat) : Nat := (a + b) % 18446744073709551616

/-- Go 64-bit unsigned subtraction (wrapping). -/
def sub64 (a b : Nat) : Nat :=
  (a + (18446744073709551616 - b % 18446744073709551616)) % 18446744073709551616

/-- Constants from the `const` block of ape.go. -/
def apeHeaderSize : Nat := 65536

def pageSize4K : Nat := 4096

def pageSize16K : Nat := 16384

/-- The ELF magic `"\x7fELF"`. -/
def elfMagic : List Nat := [0x7f, 0x45, 0x4c, 0x46]

def elfClass64 : Nat := 2

def elfDataLSB : Nat := 1

def elfOSABIFreeBSD : Nat := 9

def elfTypeExec : Nat := 2

def elfMachineAMD64 : Nat := 0x3E

def elfMachineARM64 : Nat := 0xB7

def machoMagic64 : Nat := 0xFEEDFACF

def machoCPUTypeX64 : Nat := 0x01000007

def machoCPUSubtypeX64 : Nat := 0x80000003

def machoFileTypeExec : Nat := 0x2

def machoFlagNoUndefs : Nat := 0x1

def machoLCSegment64 : Nat := 0x19

def machoLCUnixThread : Nat := 0x5

def machoProtRead : Nat := 0x1

def machoProtExec : Nat := 0x4

/-- The `__TEXT` segment name, 16 bytes (`"__TEXT"` plus ten NULs). -/
def machoSegname : List Nat :=
  bytesOf "__TEXT\x00\x00\x00\x00\x00\x00\x00\x00\x00\x00"

/-- Mach-O load address used by makeMachoHeader (`machoVMAddr`). -/
def machoVMAddr : Nat := 0x100000000

/-- makeEmbeddedElfHeader (ape.go:424-475): builds the 64-byte ELF header that
gets octal-encoded into the script's printf argument.  Writes into a zeroed
64-byte buffer at the same offsets as the source. -/
def makeEmbeddedElfHeader (origElf : List Nat) (elfOffset pageSize : Nat)
    (arch : ArchFamily) : List Nat :=
  let _ := pageSize
  let hdr := List.replicate 64 0
  let hdr := writeBytes hdr 0 elfMagic
  let hdr := hdr.set 4 elfClass64
  let hdr := hdr.set 5 elfDataLSB
  let hdr := hdr.set 6 1
  let hdr := hdr.set 7 elfOSABIFreeBSD
  let hdr := writeBytes hdr 16 (le16 elfTypeExec)
  let hdr := writeBytes hdr 18
    (le16 (match arch with | .arm64 => elfMachineARM64 | .amd64 => elfMachineAMD64))
  let hdr := writeBytes hdr 20 (le32 1)
  let hdr := writeBytes hdr 24 ((origElf.drop 24).take 8)
  let phoff := readLE64 origElf 32
  let hdr := writeBytes hdr 32 (le64 (phoff + elfOffset))
  let hdr := writeBytes hdr 40 (le64 0)
  let hdr := writeBytes hdr 48 (le32 0)
  let hdr := writeBytes hdr 52 (le16 64)
  let hdr := writeBytes hdr 54 ((origElf.drop 54).take 2)
  let hdr := writeBytes hdr 56 ((origElf.drop 56).take 2)
  let hdr := writeBytes hdr 58 (le16 64)
  let hdr := writeBytes hdr 60 (le16 0)
  let hdr := writeBytes hdr 62 (le16 0)
  hdr

/-- The 32-byte mach_header_64 emitted first by makeMachoHeader
(ape.go:504-512). -/
def machoMachHeader : List Nat :=
  le32 machoMagic64 ++ le32 machoCPUTypeX64 ++ le32 machoCPUSubtypeX64 ++
    le32 machoFileTypeExec ++ le32 2 ++ le32 (72 + 184) ++
    le32 machoFlagNoUndefs ++ le32 0

/-- The 72-byte LC_SEGMENT_64 for `__TEXT` (ape.go:514-525). -/
def machoSegment64 (elfData : List Nat) (elfOffset : Nat) : List Nat :=
  le32 machoLCSegment64 ++ le32 72 ++ machoSegname ++ le64 machoVMAddr ++
    le64 elfData.length ++ le64 elfOffset ++ le64 elfData.length ++
    le32 (machoProtRead ||| machoProtExec) ++
    le32 (machoProtRead ||| machoProtExec) ++ le32 0 ++ le32 0

/-- The LC_UNIXTHREAD bytes emitted by makeMachoHeader (ape.go:527-542):
cmd, cmdsize 184, flavor 4, count 42, then sixteen zero registers, rip,
rflags, and a final loop of four more zero registers. -/
def machoUnixThread (machoEntry : Nat) : List Nat :=
  le32 machoLCUnixThread ++ le32 184 ++ le32 4 ++ le32 42 ++
    (List.replicate 16 (le64 0)).flatten ++ le64 machoEntry ++ le64 0 ++
    (List.replicate 4 (le64 0)).flatten

/-- The PT_LOAD scan of makeMachoHeader (ape.go:486-493): iterate program
headers, returning `p_vaddr` of the first with `p_type == 1` (0 if none). -/
def firstPtLoadVaddrAux (elfData : List Nat) (elfPhoff elfPhentsize : Nat) :
    Nat → Nat → Nat
  | _, 0 => 0
  | i, n + 1 =>
    if readLE32 elfData (elfPhoff + i * elfPhentsize) = 1 then
      readLE64 elfData (elfPhoff + i * elfPhentsize + 16)
    else
      firstPtLoadVaddrAux elfData elfPhoff elfPhentsize (i + 1) n

def firstPtLoadVaddr (elfData : List Nat) : Nat :=
  firstPtLoadVaddrAux elfData (readLE64 elfData 32) (readLE16 elfData 54) 0
    (readLE16 elfData 56)

/-- makeMachoHeader (ape.go:477-545). -/
def makeMachoHeader (elfData : List Nat) (elfOffset elfEntry : Nat) : List Nat :=
  let machoEntry := add64 machoVMAddr (sub64 elfEntry (firstPtLoadVaddr elfData))
  machoMachHeader ++ machoSegment64 elfData elfOffset ++ machoUnixThread machoEntry

/-- writePEHeader (ape.go:547-620): writes the PE image into the header buffer.
peStart = 0x80, coffStart = 0x84, optStart = 0x98, sectStart = 0x188. -/
def writePEHeader (header : List Nat) (arch : ArchFamily) : List Nat :=
  let machineType := match arch with | .arm64 => 0xAA64 | .amd64 => 0x8664
  let h := writeBytes header 0x80 [80, 69, 0, 0]
  let h := writeBytes h (0x84 + 0) (le16 machineType)
  let h := writeBytes h (0x84 + 2) (le16 1)
  let h := writeBytes h (0x84 + 4) (le32 0)
  let h := writeBytes h (0x84 + 8) (le32 0)
  let h := writeBytes h (0x84 + 12) (le32 0)
  let h := writeBytes h (0x84 + 16) (le16 240)
  let h := writeBytes h (0x84 + 18) (le16 0x22)
  let h := writeBytes h (0x98 + 0) (le16 0x20B)
  let h := h.set (0x98 + 2) 1
  let h := h.set (0x98 + 3) 0
  let h := writeBytes h (0x98 + 4) (le32 0x200)
  let h := writeBytes h (0x98 + 8) (le32 0)
  let h := writeBytes h (0x98 + 12) (le32 0)
  let h := writeBytes h (0x98 + 16) (le32 0x1000)
  let h := writeBytes h (0x98 + 20) (le32 0x1000)
  let h := writeBytes h (0x98 + 24) (le64 0x140000000)
  let h := writeBytes h (0x98 + 32) (le32 0x1000)
  let h := writeBytes h (0x98 + 36) (le32 0x200)
  let h := writeBytes h (0x98 + 40) (le16 6)
  let h := writeBytes h (0x98 + 42) (le16 0)
  let h := writeBytes h (0x98 + 44) (le16 0)
  let h := writeBytes h (0x98 + 46) (le16 0)
  let h := writeBytes h (0x98 + 48) (le16 6)
  let h := writeBytes h (0x98 + 50) (le16 0)
  let h := writeBytes h (0x98 + 52) (le32 0)
  let h := writeBytes h (0x98 + 56) (le32 0x2000)
  let h := writeBytes h (0x98 + 60) (le32 0x200)
  let h := writeBytes h (0x98 + 64) (le32 0)
  let h := writeBytes h (0x98 + 68) (le16 3)
  let h := writeBytes h (0x98 + 70) (le16 0x8160)
  let h := writeBytes h (0x98 + 72) (le64 0x100000)
  let h := writeBytes h (0x98 + 80) (le64 0x1000)
  let h := writeBytes h (0x98 + 88) (le64 0x100000)
  let h := writeBytes h (0x98 + 96) (le64 0x1000)
  let h := writeBytes h (0x98 + 104) (le32 0)
  let h := writeBytes h (0x98 + 108) (le32 16)
  let h := writeBytes h 0x188 (bytesOf ".text\x00\x00\x00")
  let h := writeBytes h (0x188 + 8) (le32 0x1000)
  let h := writeBytes h (0x188 + 12) (le32 0x1000)
  let h := writeBytes h (0x188 + 16) (le32 0x200)
  let h := writeBytes h (0x188 + 20) (le32 0x200)
  let h := writeBytes h (0x188 + 24) (le32 0)
  let h := writeBytes h (0x188 + 28) (le32 0)
  let h := writeBytes h (0x188 + 32) (le16 0)
  let h := writeBytes h (0x188 + 34) (le16 0)
  let h := writeBytes h (0x188 + 36) (le32 0x60000020)
  let h := h.set 0x200 0x31
  let h := h.set 0x201 0xC0
  let h := h.set 0x202 0xC3
  h

/-- The per-byte printf encoding of the embedded ELF header
(ape.go:246-254): a single quote becomes `'\''`; printable ASCII other
than backslash is emitted literally; every other byte becomes a backslash
and exactly three octal digits (`\%03o`). -/
def encodeByte (b : Nat) : List Nat :=
  if b = 39 then [39, 92, 39, 39]
  else if 0x20 ≤ b ∧ b < 0x7f ∧ b ≠ 92 then [b]
  else [92, 48 + b / 64, 48 + b / 8 % 8, 48 + b % 8]

def encodeBytes (l : List Nat) : List Nat := (l.map encodeByte).flatten

/-- indexOf (ape.go:635-642): first index where `sub` occurs in `s`. -/
def indexOf (sub : List Nat) : List Nat → Option Nat
  | [] => if sub.isPrefixOf [] then some 0 else none
  | b :: t =>
    if sub.isPrefixOf (b :: t) then some 0
    else (indexOf sub t).map (· + 1)

/-- One replacement step plus recursion, with fuel.  The Go replaceAll
(ape.go:623-633) loops until indexOf fails; the fuel only bounds the number
of iterations and is sufficient for every call this code makes (the
replacement text never contains the pattern, and each step shortens or
preserves the list, so at most `length` replacements happen). -/
def replaceAllFuel (old new : List Nat) : Nat → List Nat → List Nat
  | 0, s => s
  | fuel + 1, s =>
    match indexOf old s with
    | none => s
    | some i => replaceAllFuel old new fuel (s.take i ++ new ++ s.drop (i + old.length))

def replaceAll (s old new : List Nat) : List Nat :=
  replaceAllFuel old new (s.length + 1) s

/-- Fixed pieces of the generated shell script, byte for byte from the
string literals of makeAPEHeader. -/
def heredocTerm : List Nat := bytesOf "__APE__\n"

def unameLine : List Nat := bytesOf "m=$(uname -m 2>/dev/null) || m=x86_64\n"

def amdS1 : List Nat := bytesOf
  "if [ \"$m\" = x86_64 ] || [ \"$m\" = amd64 ]; then\n  o=\"$(command -v \"$0\")\"\n  exec 7<> \"$o\" || exit 121\n  printf '"

def amdS2 : List Nat := bytesOf
  "  exec \"$0\" \"$@\"\nfi\nif [ \"$m\" = aarch64 ] || [ \"$m\" = arm64 ]; then\n  if [ -d /Applications ]; then\n    # macOS ARM64 running x86_64 binary: check for Rosetta\n    if ! arch -x86_64 /usr/bin/true 2>/dev/null; then\n      echo 'APE: This x86_64 binary requires Rosetta 2 on Apple Silicon.' >&2\n      echo 'Install Rosetta with: softwareupdate --install-rosetta' >&2\n      exit 1\n    fi\n    o=\"$(command -v \"$0\")\"\n    exec 7<> \"$o\" || exit 121\n    printf '"

def amdS3 : List Nat := bytesOf
  "    exec \"$0\" \"$@\"\n  fi\n  echo 'APE: ARM64 Linux cannot run x86_64 binary' >&2\n  exit 1\nfi\n"

def commonTail : List Nat := bytesOf
  "# Windows shells (MSYS/Cygwin): delegate to cmd.exe for PE execution\ncase \"$(uname -s 2>/dev/null)\" in\nCYGWIN*|MINGW*|MSYS*) exec cmd //c \"$0\" \"$@\" ;;\nesac\necho 'APE: unsupported platform' >&2\nexit 1\n"

def armS1 : List Nat := bytesOf
  "if [ \"$m\" = x86_64 ] || [ \"$m\" = amd64 ]; then\n  echo 'APE: x86_64 cannot run ARM64 binary' >&2\n  exit 1\nfi\no=\"$(command -v \"$0\")\"\nt=\"$\x7bTMPDIR:-$\x7bHOME:-.\x7d\x7d/.ape-1.10\"\nif [ \"$m\" = aarch64 ] || [ \"$m\" = arm64 ]; then\n  if [ -d /Applications ]; then\n    # macOS ARM64: use compiled Mach-O loader or compile from source\n    # Don't use existing loader if it might be ELF (from Linux)\n    if [ -x \"$t\" ] && file \"$t\" 2>/dev/null | grep -q \"Mach-O\"; then\n      exec \"$t\" \"$o\" \"$@\"\n    fi\n    # Compile APE loader from embedded source\n    if ! type cc >/dev/null 2>&1; then\n      echo \"$0: please run: xcode-select --install\" >&2\n      exit 1\n    fi\n    mkdir -p \"$\x7bt%/*\x7d\" || exit\n    dd if=\"$o\" bs=1 skip=APE_LOADER_OFFSET count=APE_LOADER_SIZE 2>/dev/null | gzip -dc >\"$t.c.$$\" || exit\n    mv -f \"$t.c.$$\" \"$t.c\" || exit\n    cc -w -O -o \"$t.$$\" \"$t.c\" || exit\n    mv -f \"$t.$$\" \"$t\" || exit\n    exec \"$t\" \"$o\" \"$@\"\n  else\n    # Linux ARM64: check for loader, or transform ELF header\n    type ape >/dev/null 2>&1 && exec ape \"$o\" \"$@\"\n    [ -x \"$t\" ] && exec \"$t\" \"$o\" \"$@\"\n    exec 7<> \"$o\" || exit 121\n    printf '"

def armS2 : List Nat := bytesOf
  "    exec 7<&-\n    exec \"$0\" \"$@\"\n  fi\nfi\n"

/-- The formatted operand tail of both dd commands
(`bs=%d skip=%d count=%d conv=notrunc 2>/dev/null\n`). -/
def ddArgs (bs skip count : Nat) : List Nat :=
  bytesOf "bs=" ++ bytesOf (Nat.repr bs) ++ bytesOf " skip=" ++
    bytesOf (Nat.repr skip) ++ bytesOf " count=" ++ bytesOf (Nat.repr count) ++
    bytesOf " conv=notrunc 2>/dev/null\n"

/-- The dd line of the x86-64 Linux/macOS branch (ape.go:261). -/
def ddLineApplications (bs skip count : Nat) : List Nat :=
  bytesOf "  [ -d /Applications ] && dd if=\"$o\" of=\"$o\" " ++ ddArgs bs skip count

/-- The dd line of the Rosetta branch (ape.go:291). -/
def ddLinePlain (bs skip count : Nat) : List Nat :=
  bytesOf "    dd if=\"$o\" of=\"$o\" " ++ ddArgs bs skip count

/-- The dd operand computation of makeAPEHeader (ape.go:257-260, repeated at
287-290): block size 8, skip `machoOffset/8`, count `⌈machoSize/8⌉`. -/
def ddParams (machoOffset machoSize : Nat) : Nat × Nat × Nat :=
  let bs := 8
  (bs, machoOffset / bs, (machoSize + bs - 1) / bs)

/-- The shell script for AMD64 targets (ape.go:230-298 plus the common tail),
with the dd operands computed as in ape.go:257-260 and 287-290. -/
def scriptAMD64 (embedded : List Nat) (machoOffset machoSize : Nat) : List Nat :=
  let bs := 8
  let skip := machoOffset / bs
  let count := (machoSize + bs - 1) / bs
  heredocTerm ++ unameLine ++ amdS1 ++ encodeBytes embedded ++ bytesOf "' >&7\n" ++
    bytesOf "  exec 7<&-\n" ++
    (if 0 < machoSize then ddLineApplications bs skip count else []) ++
    amdS2 ++ encodeBytes embedded ++ bytesOf "' >&7\n" ++
    bytesOf "    exec 7<&-\n" ++
    (if 0 < machoSize then ddLinePlain bs skip count else []) ++
    amdS3 ++ commonTail

/-- The shell script for ARM64 targets (ape.go:230-238, 299-348 plus the
common tail). -/
def scriptARM64 (embedded : List Nat) : List Nat :=
  heredocTerm ++ unameLine ++ armS1 ++ encodeBytes embedded ++
    bytesOf "' >&7\n" ++ armS2 ++ commonTail

/-- The padding loop of makeAPEHeader (ape.go:405-417): from `i` for `n`
steps, replace zero bytes by newline, skipping the Mach-O and loader
regions. -/
def padLoop (mOff mSize lOff lSize : Nat) : List Nat → Nat → Nat → List Nat
  | l, _, 0 => l
  | l, i, n + 1 =>
    let l' :=
      if (0 < mSize ∧ mOff ≤ i ∧ i < mOff + mSize) ∨
          (0 < lSize ∧ lOff ≤ i ∧ i < lOff + lSize) then l
      else if l.getD i 0 = 0 then l.set i 10
      else l
    padLoop mOff mSize lOff lSize l' (i + 1) n

/-- Errors surfaced through Exitf. -/
inductive ApeError where
  | notElf : ApeError
  | tooLargeScript (size : Nat) : ApeError
  | tooLargeLoader (size off : Nat) : ApeError
deriving DecidableEq, Repr

/-- The buffer assembly of makeAPEHeader, in source order (ape.go:197-417):
magic, spaces, quote, heredoc opener, e_lfanew, filler, script copy, loader
copy, PE header, Mach-O copy, newline before the script, padding. -/
def assembleHeader (arch : ArchFamily)
    (scriptBytes machoHeader apeLoaderGz : List Nat) : List Nat :=
  let machoOffset := 0x1000
  let machoSize := machoHeader.length
  let apeLoaderOffset := 0x8000
  let apeLoaderSize := apeLoaderGz.length
  let h := List.replicate apeHeaderSize 0
  let h := writeBytes h 0 (bytesOf "MZqFpD='")
  let h := h.set 8 10
  let h := writeBytes h 0x09 (List.replicate 35 32)
  let h := h.set 0x2C 39
  let h := writeBytes h 0x2D (bytesOf "\n: <<'__APE__'\n")
  let h := writeBytes h 0x3C (le32 0x80)
  let h := writeBytes h 0x40 (List.replicate 64 35)
  let h := writeBytes h 0x400 scriptBytes
  let h := if arch = .arm64 ∧ 0 < apeLoaderSize then
      writeBytes h apeLoaderOffset apeLoaderGz
    else h
  let h := writePEHeader h arch
  let h := if 0 < machoSize ∧ machoOffset + machoSize ≤ apeHeaderSize then
      writeBytes h machoOffset machoHeader
    else h
  let h := h.set 0x3FF 10
  padLoop machoOffset machoSize apeLoaderOffset apeLoaderSize h
    (0x400 + scriptBytes.length) (apeHeaderSize - (0x400 + scriptBytes.length))

/-- The embedded ELF header as makeAPEHeader builds it (ape.go:136-151):
page size by architecture, ELF payload offset apeHeaderSize. -/
def embeddedElfFor (elfData : List Nat) (arch : ArchFamily) : List Nat :=
  makeEmbeddedElfHeader elfData apeHeaderSize
    (if arch = .arm64 then pageSize16K else pageSize4K) arch

/-- The Mach-O header as makeAPEHeader builds it (ape.go:154-162): only for
AMD64 targets, with apeEntry = elfEntry. -/
def machoHeaderFor (elfData : List Nat) (elfEntry : Nat) (arch : ArchFamily) :
    List Nat :=
  if arch = .amd64 then makeMachoHeader elfData apeHeaderSize elfEntry else []

/-- The final script bytes of makeAPEHeader (ape.go:230-370): the architecture
branch plus, for an ARM64 build that found a loader, the replacement of the
APE_LOADER_OFFSET / APE_LOADER_SIZE placeholders (offset 0x8000,
size = len(loaderGz), per ape.go:360-370). -/
def scriptBytesFor (elfData : List Nat) (elfEntry : Nat) (arch : ArchFamily)
    (loaderGz : List Nat) : List Nat :=
  let embeddedElf := embeddedElfFor elfData arch
  let machoSize := (machoHeaderFor elfData elfEntry arch).length
  let apeLoaderGz := if arch = .arm64 then loaderGz else []
  let scriptBytes0 := match arch with
    | .amd64 => scriptAMD64 embeddedElf 0x1000 machoSize
    | .arm64 => scriptARM64 embeddedElf
  if arch = .arm64 ∧ 0 < apeLoaderGz.length then
    replaceAll (replaceAll scriptBytes0 (bytesOf "APE_LOADER_OFFSET")
        (bytesOf (Nat.repr 0x8000)))
      (bytesOf "APE_LOADER_SIZE") (bytesOf (Nat.repr apeLoaderGz.length))
  else scriptBytes0

/-- makeAPEHeader (ape.go:127-420).  `loaderGz` stands for the gzipped APE
loader source that getApeLoaderSource reads from the filesystem (empty list
when none is found, as the source then returns nil).  Both Exitf calls are
modelled as errors; the loader size check (ape.go:381) is applied before
buffer assembly, which produces the same result and the same error
precedence as the source order. -/
def makeAPEHeader (elfData : List Nat) (elfEntry elfPhoff elfPhnum : Nat)
    (arch : ArchFamily) (loaderGz : List Nat) : Except ApeError (List Nat) :=
  let _ := elfPhoff
  let _ := elfPhnum
  let machoHeader := machoHeaderFor elfData elfEntry arch
  let apeLoaderGz := if arch = .arm64 then loaderGz else []
  let scriptBytes := scriptBytesFor elfData elfEntry arch loaderGz
  if apeHeaderSize - 0x400 < scriptBytes.length then
    .error (.tooLargeScript scriptBytes.length)
  else if arch = .arm64 ∧ 0 < apeLoaderGz.length ∧
      apeHeaderSize < 0x8000 + apeLoaderGz.length then
    .error (.tooLargeLoader apeLoaderGz.length 0x8000)
  else
    .ok (assembleHeader arch scriptBytes machoHeader apeLoaderGz)

/-- The p_offset patch loop of convertToAPE (ape.go:109-114): add
apeHeaderSize to the 64-bit little-endian field at byte 8 of each program
header. -/
def patchLoop (elfPhoff elfPhentsize : Nat) : List Nat → Nat → Nat → List Nat
  | l, _, 0 => l
  | l, i, n + 1 =>
    let phdrOffset := elfPhoff + i * elfPhentsize
    let pOffset := readLE64 l (phdrOffset + 8)
    patchLoop elfPhoff elfPhentsize
      (writeBytes l (phdrOffset + 8) (le64 (pOffset + apeHeaderSize))) (i + 1) n

/-- The written output file: its bytes and its permission mode. -/
structure ApeOutput where
  bytes : List Nat
  mode : Nat
deriving DecidableEq, Repr

/-- convertToAPE (ape.go:64-125), with file I/O abstracted away: the ELF
bytes come in as `elfData`, the result is the full output file plus the
chmod mode.  The magic check, header build, program-header patch and the
`header || patched-elf` concatenation follow the source. -/
def convertToAPE (elfData : List Nat) (arch : ArchFamily) (loaderGz : List Nat) :
    Except ApeError ApeOutput :=
  if elfData.length < 64 ∨ elfData.take 4 ≠ elfMagic then .error .notElf
  else
    let elfEntry := readLE64 elfData 24
    let elfPhoff := readLE64 elfData 32
    let elfPhnum := readLE16 elfData 56
    match makeAPEHeader elfData elfEntry elfPhoff elfPhnum arch loaderGz with
    | .error e => .error e
    | .ok header =>
      let elfPhentsize := readLE16 elfData 54
      let patched := patchLoop elfPhoff elfPhentsize elfData 0 elfPhnum
      .ok ⟨header ++ patched, 0o755⟩

/-- The driver's only input validation (ape.go:82-84). -/
def elfCheckOK (elf : List Nat) : Prop :=
  64 ≤ elf.length ∧ elf.take 4 = elfMagic

/-- The precondition named by the claim: the program-header table, as sized
by `e_phoff + e_phnum * e_phentsize`, lies inside the input. -/
def claimedPhdrBound (elf : List Nat) : Prop :=
  readLE64 elf 32 + readLE16 elf 56 * readLE16 elf 54 ≤ elf.length

/-- Every access of the p_offset patch loop (ape.go:108-114) is in bounds:
entry `i`'s 8-byte read/write at `e_phoff + i*e_phentsize + 8` ends inside
the input. -/
def patchAccessOK (elf : List Nat) : Prop :=
  ∀ i, i < readLE16 elf 56 →
    readLE64 elf 32 + i * readLE16 elf 54 + 16 ≤ elf.length

/-- Every access of the PT_LOAD scan (ape.go:486-493) is in bounds: the scan
reads `p_type` of each entry until the first PT_LOAD, whose `p_vaddr` read
ends at byte 24 of the entry. -/
def scanAccessOK (elf : List Nat) : Prop :=
  ∀ i, i < readLE16 elf 56 →
    (∀ j, j < i → readLE32 elf (readLE64 elf 32 + j * readLE16 elf 54) ≠ 1) →
    readLE64 elf 32 + i * readLE16 elf 54 + 4 ≤ elf.length ∧
      (readLE32 elf (readLE64 elf 32 + i * readLE16 elf 54) = 1 →
        readLE64 elf 32 + i * readLE16 elf 54 + 24 ≤ elf.length)

def allAccessOK (elf : List Nat) : Prop := patchAccessOK elf ∧ scanAccessOK elf

/-- A list is a byte buffer: every entry below 256. -/
def IsBytes (l : List Nat) : Prop := ∀ b ∈ l, b < 256

/-- The environment constraint on the gzipped loader: when an ARM64 build
found a loader, it fits below the end of the 64 KiB header (otherwise the
source dies with "APE loader too large"). -/
def loaderFits (arch : ArchFamily) (loaderGz : List Nat) : Prop :=
  arch = .arm64 → 0x8000 + loaderGz.length ≤ apeHeaderSize

/-- A minimal well-formed x86-64 input ELF: 64-byte header (entry
0x100001000, e_phoff 64, e_phentsize 56, e_phnum 1) plus one PT_LOAD program
header with p_vaddr 0x100000000; 120 bytes in all. -/
def exElf : List Nat :=
  [0x7f, 0x45, 0x4c, 0x46, 2, 1, 1, 0] ++ List.replicate 8 0 ++
    le16 2 ++ le16 0x3E ++ le32 1 ++ le64 0x100001000 ++ le64 64 ++
    le64 0 ++ le32 0 ++ le16 64 ++ le16 56 ++ le16 1 ++ le16 0 ++
    le16 0 ++ le16 0 ++
    (le32 1 ++ le32 5 ++ le64 0 ++ le64 0x100000000 ++ le64 0 ++
      le64 120 ++ le64 120 ++ le64 0x1000)

/-- A 64-byte input that passes the driver's ELF check and satisfies the
claimed precondition (e_phoff 60, e_phentsize 0, e_phnum 1: 60 + 1*0 ≤ 64)
yet whose first patch access at 60+8..60+16 runs past the end. -/
def ex2 : List Nat :=
  [0x7f, 0x45, 0x4c, 0x46] ++ List.replicate 28 0 ++ le64 60 ++
    List.replicate 14 0 ++ le16 0 ++ le16 1 ++ List.replicate 6 0

@[simp] theorem length_le16 (v : Nat) : (le16 v).length = 2 := rfl

@[simp] theorem length_le32 (v : Nat) : (le32 v).length = 4 := rfl

@[simp] theorem length_le64 (v : Nat) : (le64 v).length = 8 := rfl

@[simp] theorem length_bytesOf (s : String) : (bytesOf s).length = s.length := by
  rw [bytesOf, List.length_map]
  rfl

@[simp] theorem length_writeBytes (src : List Nat) (dst : List Nat) (off : Nat) :
    (writeBytes dst off src).length = dst.length := by
  induction src generalizing dst off with
  | nil => rfl
  | cons b rest ih => simp [writeBytes, ih]

theorem getD_writeBytes_lt (src : List Nat) (dst : List Nat) (off i : Nat)
    (h : i < off) : (writeBytes dst off src).getD i 0 = dst.getD i 0 := by
  induction src generalizing dst off with
  | nil => rfl
  | cons b rest ih =>
    rw [writeBytes, ih _ _ (Nat.lt_succ_of_lt h)]
    simp [List.getD, List.getElem?_set_ne (by omega : off ≠ i)]

theorem getD_writeBytes_ge (src : List Nat) (dst : List Nat) (off i : Nat)
    (h : off + src.length ≤ i) :
    (writeBytes dst off src).getD i 0 = dst.getD i 0 := by
  induction src generalizing dst off with
  | nil => rfl
  | cons b rest ih =>
    rw [writeBytes, ih _ _ (by simp at h; omega)]
    simp at h
    simp [List.getD, List.getElem?_set_ne (by omega : off ≠ i)]

theorem getD_writeBytes_in (src : List Nat) (dst : List Nat) (off i : Nat)
    (h1 : off ≤ i) (h2 : i < off + src.length) (h3 : i < dst.length) :
    (writeBytes dst off src).getD i 0 = src.getD (i - off) 0 := by
  induction src generalizing dst off with
  | nil => simp at h2; omega
  | cons b rest ih =>
    rw [List.length_cons] at h2
    rw [writeBytes]
    rcases Nat.eq_or_lt_of_le h1 with heq | hlt
    · subst heq
      rw [getD_writeBytes_lt _ _ _ _ (Nat.lt_succ_self _)]
      simp [List.getD, List.getElem?_set_self (by omega : off < dst.length)]
    · rw [ih (dst.set off b) (off + 1) (by omega) (by omega) (by simpa)]
      simp only [List.getD]
      have hsub : i - off = (i - (off + 1)) + 1 := by omega
      rw [hsub]
      simp

theorem getD_set_ne (l : List Nat) (i j v : Nat) (h : i ≠ j) :
    (l.set i v).getD j 0 = l.getD j 0 := by
  simp [List.getD, List.getElem?_set_ne h]

theorem getD_set_self (l : List Nat) (i v : Nat) (h : i < l.length) :
    (l.set i v).getD i 0 = v := by
  simp [List.getD, List.getElem?_set_self h]

@[simp] theorem length_machoSegname : machoSegname.length = 16 := rfl

@[simp] theorem length_elfMagic : elfMagic.length = 4 := rfl

@[simp] theorem length_str_mz : ("MZqFpD='" : String).length = 8 := rfl

@[simp] theorem length_str_heredocOpen :
    ("\n: <<'__APE__'\n" : String).length = 15 := rfl

@[simp] theorem length_str_text :
    (".text\x00\x00\x00" : String).length = 8 := rfl

theorem readLE64_le64 (v : Nat) (post : List Nat) :
    readLE64 (le64 v ++ post) 0 = v % 18446744073709551616 := by
  show v % 256 + 256 * (v / 256 % 256) + 65536 * (v / 65536 % 256) +
      16777216 * (v / 16777216 % 256) + 4294967296 * (v / 4294967296 % 256) +
      1099511627776 * (v / 1099511627776 % 256) +
      281474976710656 * (v / 281474976710656 % 256) +
      72057594037927936 * (v / 72057594037927936 % 256) =
      v % 18446744073709551616
  omega

theorem readLE64_append_right (pre rest : List Nat) (k : Nat) :
    readLE64 (pre ++ rest) (pre.length + k) = readLE64 rest k := by
  have g : ∀ j, (pre ++ rest).getD (pre.length + k + j) 0 = rest.getD (k + j) 0 := by
    intro j
    rw [List.getD_append_right _ _ _ _ (by omega)]
    congr 1
    omega
  have g0 := g 0
  rw [Nat.add_zero, Nat.add_zero] at g0
  rw [readLE64, readLE64, g0, g 1, g 2, g 3, g 4, g 5, g 6, g 7]

theorem readLE64_extract (pre post : List Nat) (v : Nat) :
    readLE64 (pre ++ (le64 v ++ post)) pre.length = v % 18446744073709551616 := by
  have h := readLE64_append_right pre (le64 v ++ post) 0
  rw [Nat.add_zero] at h
  rw [h, readLE64_le64]

theorem readLE64_writeBytes_le64 (dst : List Nat) (off v : Nat)
    (h : off + 8 ≤ dst.length) :
    readLE64 (writeBytes dst off (le64 v)) off = v % 18446744073709551616 := by
  have g : ∀ k, k < 8 →
      (writeBytes dst off (le64 v)).getD (off + k) 0 = (le64 v).getD k 0 := by
    intro k hk
    rw [getD_writeBytes_in _ _ _ _ (by omega) (by simp; omega) (by omega)]
    congr 1
    omega
  have g0 := g 0 (by norm_num)
  rw [Nat.add_zero] at g0
  rw [readLE64, g0, g 1 (by norm_num), g 2 (by norm_num), g 3 (by norm_num),
    g 4 (by norm_num), g 5 (by norm_num), g 6 (by norm_num), g 7 (by norm_num)]
  show v % 256 + 256 * (v / 256 % 256) + 65536 * (v / 65536 % 256) +
      16777216 * (v / 16777216 % 256) + 4294967296 * (v / 4294967296 % 256) +
      1099511627776 * (v / 1099511627776 % 256) +
      281474976710656 * (v / 281474976710656 % 256) +
      72057594037927936 * (v / 72057594037927936 % 256) =
      v % 18446744073709551616
  omega

@[simp] theorem length_machoMachHeader : machoMachHeader.length = 32 := rfl

@[simp] theorem length_machoSegment64 (elfData : List Nat) (elfOffset : Nat) :
    (machoSegment64 elfData elfOffset).length = 72 := by
  simp [machoSegment64]

@[simp] theorem length_machoUnixThread (machoEntry : Nat) :
    (machoUnixThread machoEntry).length = 192 := by
  simp [machoUnixThread]

@[simp] theorem length_makeMachoHeader (elfData : List Nat) (elfOffset elfEntry : Nat) :
    (makeMachoHeader elfData elfOffset elfEntry).length = 296 := by
  simp [makeMachoHeader]

theorem makeMachoHeader_rip (elfData : List Nat) (elfOffset elfEntry : Nat) :
    readLE64 (makeMachoHeader elfData elfOffset elfEntry) 248 =
      add64 machoVMAddr (sub64 elfEntry (firstPtLoadVaddr elfData)) := by
  rw [makeMachoHeader]
  have h : machoMachHeader ++ machoSegment64 elfData elfOffset ++
      machoUnixThread (add64 machoVMAddr (sub64 elfEntry (firstPtLoadVaddr elfData))) =
      (machoMachHeader ++ machoSegment64 elfData elfOffset ++
        (le32 machoLCUnixThread ++ le32 184 ++ le32 4 ++ le32 42 ++
          (List.replicate 16 (le64 0)).flatten)) ++
      (le64 (add64 machoVMAddr (sub64 elfEntry (firstPtLoadVaddr elfData))) ++
        (le64 0 ++ (List.replicate 4 (le64 0)).flatten)) := by
    simp [machoUnixThread, List.append_assoc]
  rw [h]
  have hlen : (machoMachHeader ++ machoSegment64 elfData elfOffset ++
      (le32 machoLCUnixThread ++ le32 184 ++ le32 4 ++ le32 42 ++
        (List.replicate 16 (le64 0)).flatten)).length = 248 := by simp
  have hx := readLE64_extract (machoMachHeader ++ machoSegment64 elfData elfOffset ++
      (le32 machoLCUnixThread ++ le32 184 ++ le32 4 ++ le32 42 ++
        (List.replicate 16 (le64 0)).flatten))
    (le64 0 ++ (List.replicate 4 (le64 0)).flatten)
    (add64 machoVMAddr (sub64 elfEntry (firstPtLoadVaddr elfData)))
  rw [hlen] at hx
  rw [hx, add64]
  omega

theorem machoUnixThread_cmdsize (machoEntry : Nat) :
    readLE32 (machoUnixThread machoEntry) 4 = 184 := rfl

theorem writePEHeader_stub (header : List Nat) (arch : ArchFamily)
    (h : 0x203 ≤ header.length) :
    (writePEHeader header arch).getD 0x200 0 = 0x31 ∧
    (writePEHeader header arch).getD 0x201 0 = 0xC0 ∧
    (writePEHeader header arch).getD 0x202 0 = 0xC3 := by
  unfold writePEHeader
  refine ⟨?_, ?_, ?_⟩
  · rw [getD_set_ne _ 0x202 0x200 _ (by decide), getD_set_ne _ 0x201 0x200 _ (by decide)]
    exact getD_set_self _ _ _ (by (try simp); omega)
  · rw [getD_set_ne _ 0x202 0x201 _ (by decide)]
    exact getD_set_self _ _ _ (by (try simp); omega)
  · exact getD_set_self _ _ _ (by (try simp); omega)

theorem writePEHeader_frame (header : List Nat) (arch : ArchFamily) (i : Nat)
    (h : 0x203 ≤ i) :
    (writePEHeader header arch).getD i 0 = header.getD i 0 := by
  unfold writePEHeader
  rw [getD_set_ne _ 0x202 i _ (by omega), getD_set_ne _ 0x201 i _ (by omega),
    getD_set_ne _ 0x200 i _ (by omega)]
  repeat rw [getD_writeBytes_ge _ _ _ _ (by (try simp); omega)]
  rw [getD_set_ne _ (0x98 + 3) i _ (by omega), getD_set_ne _ (0x98 + 2) i _ (by omega)]
  repeat rw [getD_writeBytes_ge _ _ _ _ (by (try simp); omega)]

theorem getD_writeBytes_outside (src dst : List Nat) (off i : Nat)
    (h : i < off ∨ off + src.length ≤ i) :
    (writeBytes dst off src).getD i 0 = dst.getD i 0 :=
  h.elim (getD_writeBytes_lt src dst off i) (getD_writeBytes_ge src dst off i)

theorem readLE16_writeBytes_outside (src dst : List Nat) (off i : Nat)
    (h : i + 2 ≤ off ∨ off + src.length ≤ i) :
    readLE16 (writeBytes dst off src) i = readLE16 dst i := by
  unfold readLE16
  rw [getD_writeBytes_outside src dst off i (by omega),
    getD_writeBytes_outside src dst off (i + 1) (by omega)]

theorem readLE64_writeBytes_outside (src dst : List Nat) (off i : Nat)
    (h : i + 8 ≤ off ∨ off + src.length ≤ i) :
    readLE64 (writeBytes dst off src) i = readLE64 dst i := by
  unfold readLE64
  rw [getD_writeBytes_outside src dst off i (by omega),
    getD_writeBytes_outside src dst off (i + 1) (by omega),
    getD_writeBytes_outside src dst off (i + 2) (by omega),
    getD_writeBytes_outside src dst off (i + 3) (by omega),
    getD_writeBytes_outside src dst off (i + 4) (by omega),
    getD_writeBytes_outside src dst off (i + 5) (by omega),
    getD_writeBytes_outside src dst off (i + 6) (by omega),
    getD_writeBytes_outside src dst off (i + 7) (by omega)]

theorem readLE16_writeBytes_le16 (dst : List Nat) (off v : Nat)
    (h : off + 2 ≤ dst.length) :
    readLE16 (writeBytes dst off (le16 v)) off = v % 65536 := by
  have g0 : (writeBytes dst off (le16 v)).getD off 0 = (le16 v).getD 0 0 := by
    rw [getD_writeBytes_in _ _ _ _ (by omega) (by simp) (by omega), Nat.sub_self]
  have g1 : (writeBytes dst off (le16 v)).getD (off + 1) 0 = (le16 v).getD 1 0 := by
    rw [getD_writeBytes_in _ _ _ _ (by omega) (by simp) (by omega)]
    congr 1
    omega
  rw [readLE16, g0, g1]
  show v % 256 + 256 * (v / 256 % 256) = v % 65536
  omega

theorem getD_drop_take (l : List Nat) (a b k : Nat) (hk : k < b) :
    ((l.drop a).take b).getD k 0 = l.getD (a + k) 0 := by
  simp [List.getD, List.getElem?_take, hk, List.getElem?_drop]

/-- C3 (amended): the PE code stub written at offset 0x200 is the three bytes
0x31 0xC0 0xC3 for BOTH target architectures — writePEHeader (ape.go:616-619)
writes the x86 stub unconditionally and never emits the ARM64 stub the spec
describes. -/
theorem c3_pe_stub_bytes (header : List Nat) (arch : ArchFamily)
    (h : 0x203 ≤ header.length) :
    (writePEHeader header arch).getD 0x200 0 = 0x31 ∧
    (writePEHeader header arch).getD 0x201 0 = 0xC0 ∧
    (writePEHeader header arch).getD 0x202 0 = 0xC3 :=
  writePEHeader_stub header arch h

theorem c3_witness :
    (writePEHeader (List.replicate 65536 0) ArchFamily.arm64).getD 0x200 0 = 0x31 ∧
    (writePEHeader (List.replicate 65536 0) ArchFamily.arm64).getD 0x201 0 = 0xC0 ∧
    (writePEHeader (List.replicate 65536 0) ArchFamily.arm64).getD 0x202 0 = 0xC3 :=
  c3_pe_stub_bytes (List.replicate 65536 0) ArchFamily.arm64
    (by simp only [List.length_replicate]; omega)

/-- C3 counterexample: on an ARM64 build the bytes at 0x200 are not the
claimed ARM64 stub 00 00 80 D2 C0 03 5F D6 — the first stub byte is 0x31. -/
theorem c3_counterexample :
    ¬ ((writePEHeader (List.replicate 65536 0) ArchFamily.arm64).getD 0x200 0 = 0x00 ∧
      (writePEHeader (List.replicate 65536 0) ArchFamily.arm64).getD 0x201 0 = 0x00 ∧
      (writePEHeader (List.replicate 65536 0) ArchFamily.arm64).getD 0x202 0 = 0x80 ∧
      (writePEHeader (List.replicate 65536 0) ArchFamily.arm64).getD 0x203 0 = 0xD2 ∧
      (writePEHeader (List.replicate 65536 0) ArchFamily.arm64).getD 0x204 0 = 0xC0 ∧
      (writePEHeader (List.replicate 65536 0) ArchFamily.arm64).getD 0x205 0 = 0x03 ∧
      (writePEHeader (List.replicate 65536 0) ArchFamily.arm64).getD 0x206 0 = 0x5F ∧
      (writePEHeader (List.replicate 65536 0) ArchFamily.arm64).getD 0x207 0 = 0xD6) := by
  intro hcl
  have hs := writePEHeader_stub (List.replicate 65536 0) ArchFamily.arm64
    (by simp only [List.length_replicate]; omega)
  have h31 := hs.1
  rw [hcl.1] at h31
  exact absurd h31 (by decide)

theorem dd_infix_amd64 (emb : List Nat) (machoSize : Nat) (h : 0 < machoSize) :
    ddLineApplications 8 (0x1000 / 8) ((machoSize + 8 - 1) / 8) <:+:
      scriptAMD64 emb 0x1000 machoSize := by
  refine ⟨heredocTerm ++ unameLine ++ amdS1 ++ encodeBytes emb ++
    bytesOf "' >&7\n" ++ bytesOf "  exec 7<&-\n",
    amdS2 ++ encodeBytes emb ++ bytesOf "' >&7\n" ++ bytesOf "    exec 7<&-\n" ++
      (if 0 < machoSize then ddLinePlain 8 (0x1000 / 8) ((machoSize + 8 - 1) / 8)
        else []) ++ amdS3 ++ commonTail, ?_⟩
  simp [scriptAMD64, h, List.append_assoc]

theorem firstPtLoadVaddrAux_spec (elfData : List Nat) (phoff pe : Nat) :
    ∀ (n i k : Nat), i ≤ k → k < i + n →
      readLE32 elfData (phoff + k * pe) = 1 →
      (∀ j, i ≤ j → j < k → readLE32 elfData (phoff + j * pe) ≠ 1) →
      firstPtLoadVaddrAux elfData phoff pe i n =
        readLE64 elfData (phoff + k * pe + 16) := by
  intro n
  induction n with
  | zero => intro i k h1 h2 _ _; omega
  | succ n ih =>
    intro i k h1 h2 hload hfirst
    by_cases hc : readLE32 elfData (phoff + i * pe) = 1
    · have hik : k = i := by
        by_contra hne
        exact hfirst i (Nat.le_refl i) (by omega) hc
      subst hik
      simp [firstPtLoadVaddrAux, hc]
    · have hki : i < k := by
        rcases Nat.eq_or_lt_of_le h1 with he | hl
        · exact absurd (he ▸ hload) hc
        · exact hl
      rw [firstPtLoadVaddrAux, if_neg hc]
      exact ih (i + 1) k (by omega) (by omega) hload
        (fun j hj1 hj2 => hfirst j (by omega) hj2)

theorem firstPtLoadVaddr_spec (elfData : List Nat) (k : Nat)
    (hk : k < readLE16 elfData 56)
    (hload : readLE32 elfData (readLE64 elfData 32 + k * readLE16 elfData 54) = 1)
    (hfirst : ∀ j, j < k →
      readLE32 elfData (readLE64 elfData 32 + j * readLE16 elfData 54) ≠ 1) :
    firstPtLoadVaddr elfData =
      readLE64 elfData (readLE64 elfData 32 + k * readLE16 elfData 54 + 16) :=
  firstPtLoadVaddrAux_spec elfData _ _ (readLE16 elfData 56) 0 k (Nat.zero_le k)
    (by omega) hload (fun j _ hj => hfirst j hj)

/-- C1: the claim states the Mach-O header is exactly 288 bytes with a
184-byte LC_UNIXTHREAD whose declared cmdsize equals its actual length.  The
code instead produces 296 bytes: the trailing load command occupies 192 bytes
(the loop at ape.go:540-542 writes four registers after rflags instead of
three) while its declared cmdsize field, the 32-bit value at its byte 4, is
184.  This theorem records what the code does, for every input. -/
theorem c1_machoHeader_bytes (elfData : List Nat) (elfOffset elfEntry : Nat) :
    (makeMachoHeader elfData elfOffset elfEntry).length = 296 ∧
    (∃ thread : List Nat,
      makeMachoHeader elfData elfOffset elfEntry =
        machoMachHeader ++ machoSegment64 elfData elfOffset ++ thread ∧
      thread.length = 192 ∧ readLE32 thread 4 = 184) :=
  ⟨by simp, machoUnixThread _, rfl, by simp, machoUnixThread_cmdsize _⟩

/-- C2: the claim states the dd command copying the Mach-O header uses
bs=8 skip=512 count=36.  The code computes count from the actual Mach-O
header length (296 bytes, see C1), giving count=37, and splices exactly
that dd line into the generated x86-64 script. -/
theorem c2_dd_operands (elfData emb : List Nat) (elfOffset elfEntry : Nat) :
    ddParams 0x1000 (makeMachoHeader elfData elfOffset elfEntry).length =
      (8, 512, 37) ∧
    ddLineApplications 8 512 37 <:+:
      scriptAMD64 emb 0x1000 (makeMachoHeader elfData elfOffset elfEntry).length := by
  constructor
  · simp [ddParams]
  · rw [length_makeMachoHeader]
    have h1 : (0x1000 / 8 : Nat) = 512 := by norm_num
    have h2 : ((296 + 8 - 1) / 8 : Nat) = 37 := by norm_num
    have hin := dd_infix_amd64 emb 296 (by norm_num)
    rwa [h1, h2] at hin

/-- C4: for an x86-64 input with a PT_LOAD program header (entry `k` being
the first one), the rip value at offset 248 of the Mach-O header — byte 128
of the LC_UNIXTHREAD thread state, which starts at 32+72+16 = 120 — equals
0x100000000 + (elf entry − first PT_LOAD p_vaddr), as the header is built
with the entry point read from bytes 24..32 of the input. -/
theorem c4_rip_value (elfData : List Nat) (k : Nat)
    (hk : k < readLE16 elfData 56)
    (hload : readLE32 elfData (readLE64 elfData 32 + k * readLE16 elfData 54) = 1)
    (hfirst : ∀ j, j < k →
      readLE32 elfData (readLE64 elfData 32 + j * readLE16 elfData 54) ≠ 1)
    (hvle : readLE64 elfData (readLE64 elfData 32 + k * readLE16 elfData 54 + 16) ≤
      readLE64 elfData 24)
    (hfits : 0x100000000 + (readLE64 elfData 24 -
        readLE64 elfData (readLE64 elfData 32 + k * readLE16 elfData 54 + 16)) <
      18446744073709551616) :
    readLE64 (makeMachoHeader elfData 65536 (readLE64 elfData 24)) 248 =
      0x100000000 + (readLE64 elfData 24 -
        readLE64 elfData (readLE64 elfData 32 + k * readLE16 elfData 54 + 16)) := by
  rw [makeMachoHeader_rip, firstPtLoadVaddr_spec elfData k hk hload hfirst]
  rw [add64, sub64, machoVMAddr]
  omega

theorem readLE64_congr {l1 l2 : List Nat} {o : Nat}
    (h : ∀ t, t < 8 → l1.getD (o + t) 0 = l2.getD (o + t) 0) :
    readLE64 l1 o = readLE64 l2 o := by
  have h0 := h 0 (by norm_num)
  rw [Nat.add_zero] at h0
  rw [readLE64, readLE64, h0, h 1 (by norm_num), h 2 (by norm_num),
    h 3 (by norm_num), h 4 (by norm_num), h 5 (by norm_num), h 6 (by norm_num),
    h 7 (by norm_num)]

@[simp] theorem length_patchLoop (phoff pe : Nat) :
    ∀ (n : Nat) (l : List Nat) (i : Nat),
      (patchLoop phoff pe l i n).length = l.length := by
  intro n
  induction n with
  | zero => intro l i; rfl
  | succ n ih =>
    intro l i
    rw [patchLoop, ih]
    simp

theorem patchLoop_getD_frame (phoff pe : Nat) :
    ∀ (n : Nat) (l : List Nat) (i j : Nat),
      (∀ k, i ≤ k → k < i + n →
        ¬(phoff + k * pe + 8 ≤ j ∧ j < phoff + k * pe + 16)) →
      (patchLoop phoff pe l i n).getD j 0 = l.getD j 0 := by
  intro n
  induction n with
  | zero => intro l i j _; rfl
  | succ n ih =>
    intro l i j hout
    rw [patchLoop, ih _ _ _ (fun k hk1 hk2 => hout k (by omega) (by omega))]
    refine getD_writeBytes_outside _ _ _ _ ?_
    have hi := hout i (Nat.le_refl i) (by omega)
    simp only [length_le64]
    omega

theorem patchLoop_field (phoff pe : Nat) (hpe : 16 ≤ pe) :
    ∀ (n : Nat) (l : List Nat) (i k : Nat), i ≤ k → k < i + n →
      phoff + k * pe + 16 ≤ l.length →
      readLE64 (patchLoop phoff pe l i n) (phoff + k * pe + 8) =
        (readLE64 l (phoff + k * pe + 8) + 65536) % 18446744073709551616 := by
  intro n
  induction n with
  | zero => intro l i k h1 h2 _; omega
  | succ n ih =>
    intro l i k h1 h2 hbound
    have hmul : ∀ a b : Nat, a ≤ b → a * pe ≤ b * pe :=
      fun a b hab => Nat.mul_le_mul_right pe hab
    rw [patchLoop]
    rcases Nat.eq_or_lt_of_le h1 with heq | hlt
    · subst heq
      have hcong : readLE64 (patchLoop phoff pe
            (writeBytes l (phoff + i * pe + 8)
              (le64 (readLE64 l (phoff + i * pe + 8) + apeHeaderSize)))
            (i + 1) n) (phoff + i * pe + 8) =
          readLE64 (writeBytes l (phoff + i * pe + 8)
            (le64 (readLE64 l (phoff + i * pe + 8) + apeHeaderSize)))
            (phoff + i * pe + 8) := by
        refine readLE64_congr ?_
        intro t ht
        refine patchLoop_getD_frame phoff pe n _ (i + 1) _ ?_
        intro m hm1 hm2
        have hmm := hmul (i + 1) m hm1
        have hsm : (i + 1) * pe = i * pe + pe := Nat.succ_mul i pe
        omega
      rw [hcong, readLE64_writeBytes_le64 _ _ _ (by omega)]
      rfl
    · have hlen : phoff + k * pe + 16 ≤
          (writeBytes l (phoff + i * pe + 8)
            (le64 (readLE64 l (phoff + i * pe + 8) + apeHeaderSize))).length := by
        simp only [length_writeBytes]
        omega
      rw [ih _ (i + 1) k (by omega) (by omega) hlen]
      have hdisj : readLE64 (writeBytes l (phoff + i * pe + 8)
            (le64 (readLE64 l (phoff + i * pe + 8) + apeHeaderSize)))
            (phoff + k * pe + 8) =
          readLE64 l (phoff + k * pe + 8) := by
        refine readLE64_writeBytes_outside _ _ _ _ ?_
        have hmm := hmul (i + 1) k hlt
        have hsm : (i + 1) * pe = i * pe + pe := Nat.succ_mul i pe
        simp only [length_le64]
        omega
      rw [hdisj]

/-- C10 counterexample: `ex2` passes the driver's only validation (at least
64 bytes and the ELF magic) and satisfies the precondition named by the
claim, e_phoff + e_phnum*e_phentsize ≤ len (60 + 1*0 ≤ 64), yet the patch
loop's 8-byte write for entry 0 at bytes 68..76 runs past the end of the
64-byte input: the precondition as stated does not make the accesses
in-bounds, and neither does the magic check alone. -/
theorem c10_counterexample :
    elfCheckOK ex2 ∧ claimedPhdrBound ex2 ∧ ¬ allAccessOK ex2 := by
  unfold elfCheckOK claimedPhdrBound allAccessOK patchAccessOK scanAccessOK
  decide

/-- C10 (amended): the driver validates only size and magic; under the
claimed precondition e_phoff + e_phnum*e_phentsize ≤ len strengthened with
e_phentsize ≥ 24, every unchecked access of the p_offset patch loop and of
the PT_LOAD scan is in bounds.  The counterexample shows the original
precondition (and a fortiori the magic check alone) does not suffice. -/
theorem c10_access_bounds (elf : List Nat) (_hchk : elfCheckOK elf)
    (hpre : claimedPhdrBound elf) (hpe : 24 ≤ readLE16 elf 54) :
    allAccessOK elf := by
  unfold claimedPhdrBound at hpre
  have key : ∀ i, i < readLE16 elf 56 →
      readLE64 elf 32 + i * readLE16 elf 54 + 24 ≤ elf.length := by
    intro i hi
    have h1 : (i + 1) * readLE16 elf 54 ≤ readLE16 elf 56 * readLE16 elf 54 :=
      Nat.mul_le_mul_right _ (by omega)
    have h2 : (i + 1) * readLE16 elf 54 = i * readLE16 elf 54 + readLE16 elf 54 :=
      Nat.succ_mul i (readLE16 elf 54)
    omega
  refine ⟨?_, ?_⟩
  · intro i hi
    have := key i hi
    omega
  · intro i hi _
    have := key i hi
    exact ⟨by omega, fun _ => by omega⟩

theorem c10_witness : allAccessOK exElf :=
  c10_access_bounds exElf (by unfold elfCheckOK; decide)
    (by unfold claimedPhdrBound; decide) (by decide)

set_option maxRecDepth 100000 in
/-- C7: per-byte printf encoding of the embedded ELF header: a single quote
becomes the four bytes `'\\''`; printable ASCII 0x20..0x7E other than
backslash is emitted as itself; every other byte becomes a backslash and
exactly three octal digits (characters 0..7); and every backslash in the
output is followed by a quote or an octal digit, never a shortcut escape
letter. -/
theorem c7_encode_byte (b : Nat) (hb : b < 256) :
    (b = 39 → encodeByte b = [39, 92, 39, 39]) ∧
    ((0x20 ≤ b ∧ b ≤ 0x7e ∧ b ≠ 92 ∧ b ≠ 39) → encodeByte b = [b]) ∧
    ((b < 0x20 ∨ 0x7e < b ∨ b = 92) →
      encodeByte b = [92, 48 + b / 64, 48 + b / 8 % 8, 48 + b % 8] ∧
      48 + b / 64 ≤ 55 ∧ 48 + b / 8 % 8 ≤ 55 ∧ 48 + b % 8 ≤ 55) ∧
    (∀ i, i < (encodeByte b).length → (encodeByte b).getD i 0 = 92 →
      (encodeByte b).getD (i + 1) 0 = 39 ∨
      (48 ≤ (encodeByte b).getD (i + 1) 0 ∧ (encodeByte b).getD (i + 1) 0 ≤ 55)) := by
  have h123 : ∀ b, b < 256 →
      (b = 39 → encodeByte b = [39, 92, 39, 39]) ∧
      ((0x20 ≤ b ∧ b ≤ 0x7e ∧ b ≠ 92 ∧ b ≠ 39) → encodeByte b = [b]) ∧
      ((b < 0x20 ∨ 0x7e < b ∨ b = 92) →
        encodeByte b = [92, 48 + b / 64, 48 + b / 8 % 8, 48 + b % 8] ∧
        48 + b / 64 ≤ 55 ∧ 48 + b / 8 % 8 ≤ 55 ∧ 48 + b % 8 ≤ 55) := by
    decide
  have h4 : ∀ b, b < 256 →
      (∀ i, i < (encodeByte b).length → (encodeByte b).getD i 0 = 92 →
        (encodeByte b).getD (i + 1) 0 = 39 ∨
        (48 ≤ (encodeByte b).getD (i + 1) 0 ∧ (encodeByte b).getD (i + 1) 0 ≤ 55)) := by
    decide
  exact ⟨(h123 b hb).1, (h123 b hb).2.1, (h123 b hb).2.2, h4 b hb⟩

theorem c7_witness :
    ((10 : Nat) = 39 → encodeByte 10 = [39, 92, 39, 39]) ∧
    ((0x20 ≤ (10 : Nat) ∧ (10 : Nat) ≤ 0x7e ∧ (10 : Nat) ≠ 92 ∧ (10 : Nat) ≠ 39) →
      encodeByte 10 = [10]) ∧
    (((10 : Nat) < 0x20 ∨ 0x7e < (10 : Nat) ∨ (10 : Nat) = 92) →
      encodeByte 10 = [92, 48 + 10 / 64, 48 + 10 / 8 % 8, 48 + 10 % 8] ∧
      48 + (10 : Nat) / 64 ≤ 55 ∧ 48 + (10 : Nat) / 8 % 8 ≤ 55 ∧
      48 + (10 : Nat) % 8 ≤ 55) ∧
    (∀ i, i < (encodeByte 10).length → (encodeByte 10).getD i 0 = 92 →
      (encodeByte 10).getD (i + 1) 0 = 39 ∨
      (48 ≤ (encodeByte 10).getD (i + 1) 0 ∧ (encodeByte 10).getD (i + 1) 0 ≤ 55)) :=
  c7_encode_byte 10 (by decide)

/-- C6: the 64-byte embedded ELF header has the ELF magic, class 64,
little-endian data, OS ABI 9 (FreeBSD), type ET_EXEC, machine 0x3E (AMD64)
or 0xB7 (ARM64) by architecture, entry bytes copied verbatim from input
bytes 24..32, e_phoff = input e_phoff + 65536 (as a 64-bit value),
e_shoff = 0, e_phentsize and e_phnum copied from input bytes 54..58, and
e_shnum = 0. -/
theorem c6_embedded_header_fields (origElf : List Nat) (pageSize : Nat)
    (arch : ArchFamily) (hlen : 64 ≤ origElf.length) :
    (makeEmbeddedElfHeader origElf 65536 pageSize arch).length = 64 ∧
    (makeEmbeddedElfHeader origElf 65536 pageSize arch).getD 0 0 = 0x7f ∧
    (makeEmbeddedElfHeader origElf 65536 pageSize arch).getD 1 0 = 0x45 ∧
    (makeEmbeddedElfHeader origElf 65536 pageSize arch).getD 2 0 = 0x4c ∧
    (makeEmbeddedElfHeader origElf 65536 pageSize arch).getD 3 0 = 0x46 ∧
    (makeEmbeddedElfHeader origElf 65536 pageSize arch).getD 4 0 = 2 ∧
    (makeEmbeddedElfHeader origElf 65536 pageSize arch).getD 5 0 = 1 ∧
    (makeEmbeddedElfHeader origElf 65536 pageSize arch).getD 7 0 = 9 ∧
    readLE16 (makeEmbeddedElfHeader origElf 65536 pageSize arch) 16 = 2 ∧
    readLE16 (makeEmbeddedElfHeader origElf 65536 pageSize arch) 18 =
      (match arch with | .amd64 => 0x3E | .arm64 => 0xB7) ∧
    (∀ k, k < 8 → (makeEmbeddedElfHeader origElf 65536 pageSize arch).getD (24 + k) 0 =
      origElf.getD (24 + k) 0) ∧
    readLE64 (makeEmbeddedElfHeader origElf 65536 pageSize arch) 32 =
      (readLE64 origElf 32 + 65536) % 18446744073709551616 ∧
    readLE64 (makeEmbeddedElfHeader origElf 65536 pageSize arch) 40 = 0 ∧
    (∀ k, k < 2 → (makeEmbeddedElfHeader origElf 65536 pageSize arch).getD (54 + k) 0 =
      origElf.getD (54 + k) 0) ∧
    (∀ k, k < 2 → (makeEmbeddedElfHeader origElf 65536 pageSize arch).getD (56 + k) 0 =
      origElf.getD (56 + k) 0) ∧
    readLE16 (makeEmbeddedElfHeader origElf 65536 pageSize arch) 60 = 0 := by
  unfold makeEmbeddedElfHeader
  refine ⟨by simp, ?_, ?_, ?_, ?_, ?_, ?_, ?_, ?_, ?_, ?_, ?_, ?_, ?_, ?_, ?_⟩
  · repeat first
      | rw [getD_writeBytes_outside _ _ _ _ (by omega)]
      | rw [getD_set_ne _ _ 0 _ (by omega)]
    rw [getD_writeBytes_in _ _ _ _ (by omega) (by simp) (by simp)]
    rfl
  · repeat first
      | rw [getD_writeBytes_outside _ _ _ _ (by omega)]
      | rw [getD_set_ne _ _ 1 _ (by omega)]
    rw [getD_writeBytes_in _ _ _ _ (by omega) (by simp) (by simp)]
    rfl
  · repeat first
      | rw [getD_writeBytes_outside _ _ _ _ (by omega)]
      | rw [getD_set_ne _ _ 2 _ (by omega)]
    rw [getD_writeBytes_in _ _ _ _ (by omega) (by simp) (by simp)]
    rfl
  · repeat first
      | rw [getD_writeBytes_outside _ _ _ _ (by omega)]
      | rw [getD_set_ne _ _ 3 _ (by omega)]
    rw [getD_writeBytes_in _ _ _ _ (by omega) (by simp) (by simp)]
    rfl
  · repeat rw [getD_writeBytes_outside _ _ _ _ (by omega)]
    rw [getD_set_ne _ 7 4 _ (by omega), getD_set_ne _ 6 4 _ (by omega),
      getD_set_ne _ 5 4 _ (by omega)]
    rw [getD_set_self _ _ _ (by simp)]
    rfl
  · repeat rw [getD_writeBytes_outside _ _ _ _ (by omega)]
    rw [getD_set_ne _ 7 5 _ (by omega), getD_set_ne _ 6 5 _ (by omega)]
    rw [getD_set_self _ _ _ (by simp)]
    rfl
  · repeat rw [getD_writeBytes_outside _ _ _ _ (by omega)]
    rw [getD_set_self _ _ _ (by simp)]
    rfl
  · repeat rw [readLE16_writeBytes_outside _ _ _ _ (by omega)]
    rw [readLE16_writeBytes_le16 _ _ _ (by simp)]
    rfl
  · repeat rw [readLE16_writeBytes_outside _ _ _ _ (by omega)]
    rw [readLE16_writeBytes_le16 _ _ _ (by simp)]
    cases arch <;> rfl
  · intro k hk
    repeat rw [getD_writeBytes_outside _ _ _ _ (by omega)]
    rw [getD_writeBytes_in _ _ _ _ (by omega) (by simp; omega) (by simp; omega)]
    have hs : 24 + k - 24 = k := by omega
    rw [hs, getD_drop_take _ _ _ _ (by omega)]
  · repeat rw [readLE64_writeBytes_outside _ _ _ _ (by omega)]
    rw [readLE64_writeBytes_le64 _ _ _ (by simp)]
  · repeat rw [readLE64_writeBytes_outside _ _ _ _ (by omega)]
    rw [readLE64_writeBytes_le64 _ _ _ (by simp)]
  · intro k hk
    repeat rw [getD_writeBytes_outside _ _ _ _ (by omega)]
    rw [getD_writeBytes_in _ _ _ _ (by omega) (by simp; omega) (by simp; omega)]
    have hs : 54 + k - 54 = k := by omega
    rw [hs, getD_drop_take _ _ _ _ (by omega)]
  · intro k hk
    repeat rw [getD_writeBytes_outside _ _ _ _ (by omega)]
    rw [getD_writeBytes_in _ _ _ _ (by omega) (by simp; omega) (by simp; omega)]
    have hs : 56 + k - 56 = k := by omega
    rw [hs, getD_drop_take _ _ _ _ (by omega)]
  · repeat rw [readLE16_writeBytes_outside _ _ _ _ (by omega)]
    rw [readLE16_writeBytes_le16 _ _ _ (by simp)]

theorem c6_witness :
    readLE64 (makeEmbeddedElfHeader exElf 65536 4096 ArchFamily.amd64) 32 =
      (readLE64 exElf 32 + 65536) % 18446744073709551616 :=
  (c6_embedded_header_fields exElf 4096 ArchFamily.amd64
    (by decide)).2.2.2.2.2.2.2.2.2.2.2.1

theorem c4_witness :
    readLE64 (makeMachoHeader exElf 65536 (readLE64 exElf 24)) 248 =
      0x100000000 + (readLE64 exElf 24 -
        readLE64 exElf (readLE64 exElf 32 + 0 * readLE16 exElf 54 + 16)) :=
  c4_rip_value exElf 0 (by decide) (by decide)
    (fun j hj => absurd hj (Nat.not_lt_zero j)) (by decide) (by decide)

@[simp] theorem length_makeEmbeddedElfHeader (origElf : List Nat)
    (elfOffset pageSize : Nat) (arch : ArchFamily) :
    (makeEmbeddedElfHeader origElf elfOffset pageSize arch).length = 64 := by
  unfold makeEmbeddedElfHeader
  simp

@[simp] theorem length_writePEHeader (header : List Nat) (arch : ArchFamily) :
    (writePEHeader header arch).length = header.length := by
  unfold writePEHeader
  simp

@[simp] theorem length_padLoop (a b c d : Nat) :
    ∀ (n : Nat) (l : List Nat) (i : Nat),
      (padLoop a b c d l i n).length = l.length := by
  intro n
  induction n with
  | zero => intro l i; rfl
  | succ n ih =>
    intro l i
    rw [padLoop, ih]
    split
    · rfl
    · split <;> simp

@[simp] theorem length_assembleHeader (arch : ArchFamily)
    (script macho loader : List Nat) :
    (assembleHeader arch script macho loader).length = 65536 := by
  unfold assembleHeader
  rw [length_padLoop]
  split <;> split <;> (simp; rfl)

theorem padLoop_getD_lt (a b c d : Nat) :
    ∀ (n : Nat) (l : List Nat) (i j : Nat), j < i →
      (padLoop a b c d l i n).getD j 0 = l.getD j 0 := by
  intro n
  induction n with
  | zero => intro l i j _; rfl
  | succ n ih =>
    intro l i j hj
    rw [padLoop, ih _ _ _ (by omega)]
    split
    · rfl
    · split
      · exact getD_set_ne _ i j _ (by omega)
      · rfl

theorem padLoop_getD_pad (a b c d : Nat) :
    ∀ (n : Nat) (l : List Nat) (i j : Nat), i ≤ j → j < i + n →
      ¬((0 < b ∧ a ≤ j ∧ j < a + b) ∨ (0 < d ∧ c ≤ j ∧ j < c + d)) →
      l.getD j 0 = 0 → j < l.length →
      (padLoop a b c d l i n).getD j 0 = 10 := by
  intro n
  induction n with
  | zero => intro l i j h1 h2 _ _ _; omega
  | succ n ih =>
    intro l i j h1 h2 hskip hzero hlen
    rw [padLoop]
    rcases Nat.eq_or_lt_of_le h1 with heq | hlt
    · subst heq
      rw [padLoop_getD_lt _ _ _ _ _ _ _ _ (by omega)]
      rw [if_neg hskip, if_pos hzero]
      exact getD_set_self _ _ _ hlen
    · have hstep : ∀ l' : List Nat,
          (if (0 < b ∧ a ≤ i ∧ i < a + b) ∨ (0 < d ∧ c ≤ i ∧ i < c + d) then l'
            else if l'.getD i 0 = 0 then l'.set i 10 else l').getD j 0 =
            l'.getD j 0 := by
        intro l'
        split
        · rfl
        · split
          · exact getD_set_ne _ i j _ (by omega)
          · rfl
      have hstepl : ∀ l' : List Nat,
          (if (0 < b ∧ a ≤ i ∧ i < a + b) ∨ (0 < d ∧ c ≤ i ∧ i < c + d) then l'
            else if l'.getD i 0 = 0 then l'.set i 10 else l').length =
            l'.length := by
        intro l'
        split
        · rfl
        · split <;> simp
      refine ih _ (i + 1) j (by omega) (by omega) hskip ?_ ?_
      · rw [hstep]
        exact hzero
      · rw [hstepl]
        exact hlen

theorem encodeByte_length_le (b : Nat) : (encodeByte b).length ≤ 4 := by
  unfold encodeByte
  split
  · simp
  · split
    · simp
    · simp

theorem encodeBytes_length_le (l : List Nat) :
    (encodeBytes l).length ≤ 4 * l.length := by
  induction l with
  | nil => simp [encodeBytes]
  | cons b t ih =>
    have hb := encodeByte_length_le b
    simp only [encodeBytes, List.map_cons, List.flatten_cons, List.length_append,
      List.length_cons] at ih ⊢
    omega

theorem indexOf_le (sub : List Nat) :
    ∀ (s : List Nat) (i : Nat), indexOf sub s = some i →
      i + sub.length ≤ s.length := by
  intro s
  induction s with
  | nil =>
    intro i h
    unfold indexOf at h
    split at h
    · cases h
      have hp : sub <+: ([] : List Nat) := by
        rw [← List.isPrefixOf_iff_prefix]
        assumption
      have := hp.length_le
      simpa using this
    · cases h
  | cons x t ih =>
    intro i h
    unfold indexOf at h
    split at h
    · cases h
      have hp : sub <+: (x :: t) := by
        rw [← List.isPrefixOf_iff_prefix]
        assumption
      have := hp.length_le
      simpa using this
    · rcases Option.map_eq_some'.mp h with ⟨j, hj, rfl⟩
      have := ih j hj
      simp only [List.length_cons]
      omega

theorem replaceAllFuel_length_le (old new : List Nat)
    (hle : new.length ≤ old.length) :
    ∀ (fuel : Nat) (s : List Nat),
      (replaceAllFuel old new fuel s).length ≤ s.length := by
  intro fuel
  induction fuel with
  | zero => intro s; rw [replaceAllFuel]
  | succ f ih =>
    intro s
    rw [replaceAllFuel]
    cases hidx : indexOf old s with
    | none => exact Nat.le_refl _
    | some i =>
      have hi := indexOf_le old s i hidx
      refine Nat.le_trans (ih _) ?_
      simp only [List.length_append, List.length_take, List.length_drop]
      omega

theorem replaceAll_length_le (s old new : List Nat)
    (hle : new.length ≤ old.length) :
    (replaceAll s old new).length ≤ s.length :=
  replaceAllFuel_length_le old new hle _ s

set_option maxRecDepth 40000 in
theorem scriptARM64_length_le (emb : List Nat) (h : emb.length = 64) :
    (scriptARM64 emb).length ≤ 1664 := by
  have he := encodeBytes_length_le emb
  rw [h] at he
  have h1 : heredocTerm.length = 8 := by decide
  have h2 : unameLine.length = 38 := by decide
  have h3 : armS1.length = 1110 := by decide
  have h4 : (bytesOf "' >&7\n").length = 6 := by decide
  have h5 : armS2.length = 41 := by decide
  have h6 : commonTail.length = 200 := by decide
  unfold scriptARM64
  simp only [List.length_append]
  omega

set_option maxRecDepth 40000 in
theorem scriptAMD64_length_le (emb : List Nat) (h : emb.length = 64) :
    (scriptAMD64 emb 0x1000 296).length ≤ 1616 := by
  have he := encodeBytes_length_le emb
  rw [h] at he
  have h1 : heredocTerm.length = 8 := by decide
  have h2 : unameLine.length = 38 := by decide
  have h3 : amdS1.length = 110 := by decide
  have h4 : (bytesOf "' >&7\n").length = 6 := by decide
  have h5 : (bytesOf "  exec 7<&-\n").length = 12 := by decide
  have h6 : amdS2.length = 452 := by decide
  have h7 : (bytesOf "    exec 7<&-\n").length = 14 := by decide
  have h8 : amdS3.length = 91 := by decide
  have h9 : commonTail.length = 200 := by decide
  have hdd1 : (ddLineApplications 8 (0x1000 / 8) ((296 + 8 - 1) / 8)).length = 93 := by
    decide
  have hdd2 : (ddLinePlain 8 (0x1000 / 8) ((296 + 8 - 1) / 8)).length = 71 := by
    decide
  unfold scriptAMD64
  simp only [List.length_append, if_pos (show (0 : Nat) < 296 by norm_num),
    h1, h2, h3, h4, h5, h6, h7, h8, h9, hdd1, hdd2]
  omega

@[simp] theorem length_embeddedElfFor (elfData : List Nat) (arch : ArchFamily) :
    (embeddedElfFor elfData arch).length = 64 := by
  unfold embeddedElfFor
  simp

theorem machoHeaderFor_amd64_length (elfData : List Nat) (elfEntry : Nat) :
    (machoHeaderFor elfData elfEntry .amd64).length = 296 := by
  unfold machoHeaderFor
  rw [if_pos rfl]
  simp

theorem machoHeaderFor_arm64 (elfData : List Nat) (elfEntry : Nat) :
    machoHeaderFor elfData elfEntry .arm64 = [] := by
  unfold machoHeaderFor
  rfl

theorem scriptBytesFor_arm64_no_loader (elfData : List Nat) (elfEntry : Nat) :
    scriptBytesFor elfData elfEntry .arm64 [] =
      scriptARM64 (embeddedElfFor elfData .arm64) := by
  unfold scriptBytesFor
  simp

theorem scriptBytesFor_amd64 (elfData : List Nat) (elfEntry : Nat)
    (loaderGz : List Nat) :
    scriptBytesFor elfData elfEntry .amd64 loaderGz =
      scriptAMD64 (embeddedElfFor elfData .amd64) 0x1000
        (machoHeaderFor elfData elfEntry .amd64).length := by
  unfold scriptBytesFor
  simp

theorem scriptBytesFor_arm64_loader (elfData : List Nat) (elfEntry : Nat)
    (loaderGz : List Nat) (hl : 0 < loaderGz.length) :
    scriptBytesFor elfData elfEntry .arm64 loaderGz =
      replaceAll (replaceAll (scriptARM64 (embeddedElfFor elfData .arm64))
          (bytesOf "APE_LOADER_OFFSET") (bytesOf (Nat.repr 0x8000)))
        (bytesOf "APE_LOADER_SIZE") (bytesOf (Nat.repr loaderGz.length)) := by
  unfold scriptBytesFor
  simp [hl]

set_option maxRecDepth 40000 in
theorem scriptBytesFor_length_le (elfData : List Nat) (elfEntry : Nat)
    (arch : ArchFamily) (loaderGz : List Nat) (hfit : loaderFits arch loaderGz) :
    (scriptBytesFor elfData elfEntry arch loaderGz).length ≤ 1664 := by
  cases arch with
  | amd64 =>
    rw [scriptBytesFor_amd64, machoHeaderFor_amd64_length]
    exact Nat.le_trans (scriptAMD64_length_le _ (by simp)) (by norm_num)
  | arm64 =>
    have hbase : (scriptARM64 (embeddedElfFor elfData .arm64)).length ≤ 1664 :=
      scriptARM64_length_le _ (by simp)
    by_cases hl : 0 < loaderGz.length
    · rw [scriptBytesFor_arm64_loader elfData elfEntry loaderGz hl]
      have hsz : loaderGz.length ≤ 32768 := by
        have := hfit rfl
        unfold apeHeaderSize at this
        omega
      have hrepr : (Nat.repr loaderGz.length).length ≤ 5 :=
        Nat.repr_length _ 5 (by norm_num) (by omega)
      have hn2 : (bytesOf (Nat.repr loaderGz.length)).length ≤
          (bytesOf "APE_LOADER_SIZE").length := by
        simp only [length_bytesOf]
        have h15 : ("APE_LOADER_SIZE" : String).length = 15 := by decide
        omega
      have hn1 : (bytesOf (Nat.repr 0x8000)).length ≤
          (bytesOf "APE_LOADER_OFFSET").length := by decide
      refine Nat.le_trans (replaceAll_length_le _ _ _ hn2) ?_
      refine Nat.le_trans (replaceAll_length_le _ _ _ hn1) ?_
      exact hbase
    · have h0 : loaderGz = [] := List.eq_nil_of_length_eq_zero (by omega)
      rw [h0, scriptBytesFor_arm64_no_loader]
      exact hbase

theorem makeAPEHeader_ok (elfData loaderGz : List Nat)
    (elfEntry elfPhoff elfPhnum : Nat) (arch : ArchFamily)
    (hfit : loaderFits arch loaderGz) :
    makeAPEHeader elfData elfEntry elfPhoff elfPhnum arch loaderGz =
      .ok (assembleHeader arch (scriptBytesFor elfData elfEntry arch loaderGz)
        (machoHeaderFor elfData elfEntry arch)
        (if arch = .arm64 then loaderGz else [])) := by
  have hbound := scriptBytesFor_length_le elfData elfEntry arch loaderGz hfit
  unfold makeAPEHeader
  rw [if_neg (by unfold apeHeaderSize; omega)]
  rw [if_neg ?hldr]
  case hldr =>
    rintro ⟨h1, _, h3⟩
    have := hfit h1
    rw [if_pos h1] at h3
    omega

theorem convertToAPE_ok (elfData loaderGz : List Nat) (arch : ArchFamily)
    (hfit : loaderFits arch loaderGz)
    (hgood : ¬(elfData.length < 64 ∨ elfData.take 4 ≠ elfMagic)) :
    convertToAPE elfData arch loaderGz =
      .ok ⟨assembleHeader arch
          (scriptBytesFor elfData (readLE64 elfData 24) arch loaderGz)
          (machoHeaderFor elfData (readLE64 elfData 24) arch)
          (if arch = .arm64 then loaderGz else []) ++
        patchLoop (readLE64 elfData 32) (readLE16 elfData 54) elfData 0
          (readLE16 elfData 56), 0o755⟩ := by
  unfold convertToAPE
  rw [if_neg hgood]
  simp only [makeAPEHeader_ok elfData loaderGz (readLE64 elfData 24)
    (readLE64 elfData 32) (readLE16 elfData 56) arch hfit]

/-- C5: for a valid input ELF (driver check passed, standard-sized
non-overlapping program headers whose patch fields lie inside the input)
and either architecture, the conversion succeeds with mode 0o755 and output
`header ++ patched-elf`: 65536 + len(input) bytes in all, the first 65536
being the polyglot header; the ELF payload equals the input byte-for-byte
outside the p_offset fields, and each of the e_phnum p_offset fields is the
input value plus 65536 (as a 64-bit little-endian field). -/
theorem c5_output_format (elfData loaderGz : List Nat) (arch : ArchFamily)
    (hfit : loaderFits arch loaderGz)
    (hgood : 64 ≤ elfData.length ∧ elfData.take 4 = elfMagic)
    (hpe : 16 ≤ readLE16 elfData 54)
    (hacc : patchAccessOK elfData) :
    ∃ out, convertToAPE elfData arch loaderGz = .ok out ∧
      out.mode = 0o755 ∧
      out.bytes.length = 65536 + elfData.length ∧
      (∃ header, makeAPEHeader elfData (readLE64 elfData 24) (readLE64 elfData 32)
          (readLE16 elfData 56) arch loaderGz = .ok header ∧
        header.length = 65536 ∧
        out.bytes = header ++ patchLoop (readLE64 elfData 32) (readLE16 elfData 54)
          elfData 0 (readLE16 elfData 56)) ∧
      (∀ j, j < elfData.length →
        (∀ i, i < readLE16 elfData 56 →
          ¬(readLE64 elfData 32 + i * readLE16 elfData 54 + 8 ≤ j ∧
            j < readLE64 elfData 32 + i * readLE16 elfData 54 + 16)) →
        out.bytes.getD (65536 + j) 0 = elfData.getD j 0) ∧
      (∀ i, i < readLE16 elfData 56 →
        readLE64 out.bytes
            (65536 + (readLE64 elfData 32 + i * readLE16 elfData 54 + 8)) =
          (readLE64 elfData (readLE64 elfData 32 + i * readLE16 elfData 54 + 8) +
            65536) % 18446744073709551616) := by
  have hgood2 : ¬(elfData.length < 64 ∨ elfData.take 4 ≠ elfMagic) := by
    push_neg
    exact ⟨by omega, hgood.2⟩
  have hok := convertToAPE_ok elfData loaderGz arch hfit hgood2
  refine ⟨_, hok, rfl, ?_, ?_, ?_, ?_⟩
  · simp
  · exact ⟨_, makeAPEHeader_ok elfData loaderGz (readLE64 elfData 24)
      (readLE64 elfData 32) (readLE16 elfData 56) arch hfit, by simp, rfl⟩
  · intro j hj hout
    show (assembleHeader arch _ _ _ ++ patchLoop _ _ elfData 0 _).getD (65536 + j) 0 =
      elfData.getD j 0
    rw [List.getD_append_right _ _ _ _ (by simp)]
    have hidx : 65536 + j - (assembleHeader arch
        (scriptBytesFor elfData (readLE64 elfData 24) arch loaderGz)
        (machoHeaderFor elfData (readLE64 elfData 24) arch)
        (if arch = .arm64 then loaderGz else [])).length = j := by
      simp
    rw [hidx]
    exact patchLoop_getD_frame _ _ _ _ _ _ (fun k hk1 hk2 => hout k (by omega))
  · intro i hi
    show readLE64 (assembleHeader arch _ _ _ ++ patchLoop _ _ elfData 0 _)
      (65536 + (readLE64 elfData 32 + i * readLE16 elfData 54 + 8)) = _
    have hsplit : 65536 + (readLE64 elfData 32 + i * readLE16 elfData 54 + 8) =
        (assembleHeader arch
          (scriptBytesFor elfData (readLE64 elfData 24) arch loaderGz)
          (machoHeaderFor elfData (readLE64 elfData 24) arch)
          (if arch = .arm64 then loaderGz else [])).length +
          (readLE64 elfData 32 + i * readLE16 elfData 54 + 8) := by
      simp
    rw [hsplit, readLE64_append_right]
    exact patchLoop_field _ _ hpe _ elfData 0 i (Nat.zero_le i) (by omega)
      (hacc i hi)

theorem c5_witness :
    ∃ out, convertToAPE exElf ArchFamily.amd64 [] = .ok out ∧
      out.mode = 0o755 ∧
      out.bytes.length = 65536 + exElf.length ∧
      (∃ header, makeAPEHeader exElf (readLE64 exElf 24) (readLE64 exElf 32)
          (readLE16 exElf 56) ArchFamily.amd64 [] = .ok header ∧
        header.length = 65536 ∧
        out.bytes = header ++ patchLoop (readLE64 exElf 32) (readLE16 exElf 54)
          exElf 0 (readLE16 exElf 56)) ∧
      (∀ j, j < exElf.length →
        (∀ i, i < readLE16 exElf 56 →
          ¬(readLE64 exElf 32 + i * readLE16 exElf 54 + 8 ≤ j ∧
            j < readLE64 exElf 32 + i * readLE16 exElf 54 + 16)) →
        out.bytes.getD (65536 + j) 0 = exElf.getD j 0) ∧
      (∀ i, i < readLE16 exElf 56 →
        readLE64 out.bytes
            (65536 + (readLE64 exElf 32 + i * readLE16 exElf 54 + 8)) =
          (readLE64 exElf (readLE64 exElf 32 + i * readLE16 exElf 54 + 8) +
            65536) % 18446744073709551616) :=
  c5_output_format exElf [] ArchFamily.amd64 (fun h => by cases h)
    (by constructor <;> decide) (by decide)
    (by unfold patchAccessOK; decide)

theorem convertToAPE_notElf (elfData loaderGz : List Nat) (arch : ArchFamily)
    (hbad : elfData.length < 64 ∨ elfData.take 4 ≠ elfMagic) :
    convertToAPE elfData arch loaderGz = .error .notElf := by
  unfold convertToAPE
  rw [if_pos hbad]

/-- C8: conversion fails with the not-an-ELF error exactly when the input is
shorter than 64 bytes or lacks the ELF magic; it fails with the
script-too-large error, which names the script size, exactly when the
generated script exceeds 0xFC00 = 64512 bytes (which in fact never happens:
the script is at most 1664 bytes); for every other input (with the loader,
an environment input, fitting in the header as the source otherwise dies)
header assembly and conversion succeed. -/
theorem c8_error_characterization (elfData loaderGz : List Nat)
    (arch : ArchFamily) (hfit : loaderFits arch loaderGz) :
    (convertToAPE elfData arch loaderGz = .error .notElf ↔
      (elfData.length < 64 ∨ elfData.take 4 ≠ elfMagic)) ∧
    (∀ n, convertToAPE elfData arch loaderGz = .error (.tooLargeScript n) ↔
      (¬(elfData.length < 64 ∨ elfData.take 4 ≠ elfMagic) ∧
        n = (scriptBytesFor elfData (readLE64 elfData 24) arch loaderGz).length ∧
        65536 - 0x400 < n)) ∧
    (¬(elfData.length < 64 ∨ elfData.take 4 ≠ elfMagic) →
      ∃ header, makeAPEHeader elfData (readLE64 elfData 24) (readLE64 elfData 32)
          (readLE16 elfData 56) arch loaderGz = .ok header ∧
        convertToAPE elfData arch loaderGz =
          .ok ⟨header ++ patchLoop (readLE64 elfData 32) (readLE16 elfData 54)
            elfData 0 (readLE16 elfData 56), 0o755⟩) := by
  have hbound := scriptBytesFor_length_le elfData (readLE64 elfData 24) arch
    loaderGz hfit
  by_cases hbad : elfData.length < 64 ∨ elfData.take 4 ≠ elfMagic
  · have herr := convertToAPE_notElf elfData loaderGz arch hbad
    refine ⟨⟨fun _ => hbad, fun _ => herr⟩, ?_, ?_⟩
    · intro n
      constructor
      · intro h
        rw [herr] at h
        cases h
      · rintro ⟨h1, _⟩
        exact absurd hbad h1
    · intro h
      exact absurd hbad h
  · have hok := convertToAPE_ok elfData loaderGz arch hfit hbad
    refine ⟨⟨fun h => ?_, fun h => absurd h hbad⟩, ?_, ?_⟩
    · rw [hok] at h
      cases h
    · intro n
      constructor
      · intro h
        rw [hok] at h
        cases h
      · rintro ⟨_, hn, hlarge⟩
        omega
    · intro _
      exact ⟨_, makeAPEHeader_ok elfData loaderGz (readLE64 elfData 24)
        (readLE64 elfData 32) (readLE16 elfData 56) arch hfit, hok⟩

theorem c8_witness :
    (convertToAPE exElf ArchFamily.amd64 [] = .error .notElf ↔
      (exElf.length < 64 ∨ exElf.take 4 ≠ elfMagic)) ∧
    (∀ n, convertToAPE exElf ArchFamily.amd64 [] = .error (.tooLargeScript n) ↔
      (¬(exElf.length < 64 ∨ exElf.take 4 ≠ elfMagic) ∧
        n = (scriptBytesFor exElf (readLE64 exElf 24) ArchFamily.amd64 []).length ∧
        65536 - 0x400 < n)) ∧
    (¬(exElf.length < 64 ∨ exElf.take 4 ≠ elfMagic) →
      ∃ header, makeAPEHeader exElf (readLE64 exElf 24) (readLE64 exElf 32)
          (readLE16 exElf 56) ArchFamily.amd64 [] = .ok header ∧
        convertToAPE exElf ArchFamily.amd64 [] =
          .ok ⟨header ++ patchLoop (readLE64 exElf 32) (readLE16 exElf 54)
            exElf 0 (readLE16 exElf 56), 0o755⟩) :=
  c8_error_characterization exElf [] ArchFamily.amd64 (fun h => by cases h)

theorem bytesOf_append (a b : String) :
    bytesOf (a ++ b) = bytesOf a ++ bytesOf b := by
  simp [bytesOf]

set_option maxRecDepth 40000 in
theorem placeholder_infix_armS1 :
    bytesOf "skip=APE_LOADER_OFFSET count=APE_LOADER_SIZE" <:+: armS1 := by
  refine ⟨bytesOf "if [ \"$m\" = x86_64 ] || [ \"$m\" = amd64 ]; then\n  echo 'APE: x86_64 cannot run ARM64 binary' >&2\n  exit 1\nfi\no=\"$(command -v \"$0\")\"\nt=\"$\x7bTMPDIR:-$\x7bHOME:-.\x7d\x7d/.ape-1.10\"\nif [ \"$m\" = aarch64 ] || [ \"$m\" = arm64 ]; then\n  if [ -d /Applications ]; then\n    # macOS ARM64: use compiled Mach-O loader or compile from source\n    # Don't use existing loader if it might be ELF (from Linux)\n    if [ -x \"$t\" ] && file \"$t\" 2>/dev/null | grep -q \"Mach-O\"; then\n      exec \"$t\" \"$o\" \"$@\"\n    fi\n    # Compile APE loader from embedded source\n    if ! type cc >/dev/null 2>&1; then\n      echo \"$0: please run: xcode-select --install\" >&2\n      exit 1\n    fi\n    mkdir -p \"$\x7bt%/*\x7d\" || exit\n    dd if=\"$o\" bs=1 ",
    bytesOf " 2>/dev/null | gzip -dc >\"$t.c.$$\" || exit\n    mv -f \"$t.c.$$\" \"$t.c\" || exit\n    cc -w -O -o \"$t.$$\" \"$t.c\" || exit\n    mv -f \"$t.$$\" \"$t\" || exit\n    exec \"$t\" \"$o\" \"$@\"\n  else\n    # Linux ARM64: check for loader, or transform ELF header\n    type ape >/dev/null 2>&1 && exec ape \"$o\" \"$@\"\n    [ -x \"$t\" ] && exec \"$t\" \"$o\" \"$@\"\n    exec 7<> \"$o\" || exit 121\n    printf '", ?_⟩
  rw [← bytesOf_append, ← bytesOf_append]
  rfl

theorem armS1_infix_scriptARM64 (emb : List Nat) : armS1 <:+: scriptARM64 emb := by
  refine ⟨heredocTerm ++ unameLine,
    encodeBytes emb ++ bytesOf "' >&7\n" ++ armS2 ++ commonTail, ?_⟩
  simp [scriptARM64, List.append_assoc]

set_option maxRecDepth 40000 in
theorem assembleHeader_arm64_byte_0x8000 (script : List Nat)
    (hs : script.length ≤ 1664) :
    (assembleHeader .arm64 script [] []).getD 0x8000 0 = 10 := by
  unfold assembleHeader
  simp only [List.length_nil, lt_self_iff_false, and_false, false_and, if_false]
  refine padLoop_getD_pad _ _ _ _ _ _ _ _ (by omega) ?_ (by simp) ?_ ?_
  · unfold apeHeaderSize
    omega
  · rw [getD_set_ne _ 0x3FF 0x8000 _ (by omega)]
    rw [writePEHeader_frame _ _ _ (by omega)]
    rw [getD_writeBytes_ge _ _ _ _ (by omega)]
    rw [getD_writeBytes_ge _ _ _ _ (by simp)]
    rw [getD_writeBytes_ge _ _ _ _ (by simp)]
    rw [getD_writeBytes_ge _ _ _ _ (by simp)]
    rw [getD_set_ne _ 0x2C 0x8000 _ (by omega)]
    rw [getD_writeBytes_ge _ _ _ _ (by simp)]
    rw [getD_set_ne _ 8 0x8000 _ (by omega)]
    rw [getD_writeBytes_ge _ _ _ _ (by simp)]
    rw [List.getD_eq_getElem?_getD, List.getElem?_replicate]
    rw [if_pos (show 32768 < apeHeaderSize by decide)]
    rfl
  · simp only [List.length_set, length_writePEHeader, length_writeBytes,
      List.length_replicate]
    decide

/-- C9: an ARM64 build with no APE loader found (getApeLoaderSource returned
nil, modelled as the empty loader) still assembles successfully; the script
keeps the literal APE_LOADER_OFFSET and APE_LOADER_SIZE placeholders in its
dd line (no replacement runs); and the byte at offset 0x8000 of the header is
the 0x0A padding newline, not loader data. -/
theorem c9_arm64_no_loader (elfData : List Nat) (elfEntry elfPhoff elfPhnum : Nat) :
    makeAPEHeader elfData elfEntry elfPhoff elfPhnum .arm64 [] =
      .ok (assembleHeader .arm64 (scriptBytesFor elfData elfEntry .arm64 [])
        (machoHeaderFor elfData elfEntry .arm64) []) ∧
    scriptBytesFor elfData elfEntry .arm64 [] =
      scriptARM64 (embeddedElfFor elfData .arm64) ∧
    bytesOf "skip=APE_LOADER_OFFSET count=APE_LOADER_SIZE" <:+:
      scriptBytesFor elfData elfEntry .arm64 [] ∧
    (assembleHeader .arm64 (scriptBytesFor elfData elfEntry .arm64 [])
      (machoHeaderFor elfData elfEntry .arm64) []).getD 0x8000 0 = 10 := by
  have hscript := scriptBytesFor_arm64_no_loader elfData elfEntry
  have hok := makeAPEHeader_ok elfData [] elfEntry elfPhoff elfPhnum .arm64
    (fun _ => by decide)
  have hlen : (scriptBytesFor elfData elfEntry .arm64 []).length ≤ 1664 := by
    rw [hscript]
    exact scriptARM64_length_le _ (by simp)
  refine ⟨by simpa using hok, hscript, ?_, ?_⟩
  · rw [hscript]
    exact (placeholder_infix_armS1).trans (armS1_infix_scriptARM64 _)
  · rw [machoHeaderFor_arm64]
    exact assembleHeader_arm64_byte_0x8000 _ hlen

end Ape
